import Mathlib

/-!
Shallow embedding of `src/iotsend.c` (the iotsend utility) and proofs of the
specification's claims about it.

The program parses command-line options into a single state struct
(`IOTSendState`), creates an external IOT client, and calls `SendMessage`,
which rewrites the header string in place, opens the input file (or uses
standard input), and delegates to the external `IOTCLIENT_Stream` call.

External calls (`stat`, `open`, `IOTCLIENT_Create`, `IOTCLIENT_Stream`) are
modelled by an explicit environment record giving their outcomes, so the
program logic itself is a pure function of the parsed state and that
environment.
-/

/-- The value STDIN_FILENO, the file descriptor `fd` is initialised to in
`SendMessage`. -/
def STDIN_FILENO : Int := 0

/-- Success code returned by `main` when the client handle was created
(`result = EOK`). -/
def EOK : Int := 0

/-- POSIX EINVAL (22), the initial value of `result` in both `main` and
`SendMessage`. -/
def EINVAL : Int := 22

/-- The `IOTSendState` struct of iotsend.c, without the external client
handle (which is modelled by the environment): verbose flag, optional file
name, optional raw headers string.  `NULL` pointers are `none`. -/
structure IOTSendState where
  verbose : Bool
  fileName : Option String
  headers : Option String
deriving DecidableEq, Repr

/-- Character rewrite done by the loop in `SendMessage`: a semicolon becomes
a newline, every other character is kept. -/
def semiToNl (c : Char) : Char := if c = ';' then '\n' else c

/-- The in-place loop of `SendMessage` (iotsend.c lines 188-194) on the
character list of the headers string: `for (i=0; i<strlen(headers); i++) if
(headers[i]==';') headers[i]='\n';`.  Since a newline is not the NUL
terminator, `strlen` is constant across iterations and the loop rewrites
each position independently. -/
def replaceSemisList : List Char → List Char
  | [] => []
  | c :: cs => semiToNl c :: replaceSemisList cs

/-- The header rewrite on strings. -/
def replaceSemis (s : String) : String := String.mk (replaceSemisList s.data)

/-- Outcomes of the external calls made by `SendMessage`:
`statSize = some sz` when `stat` succeeds reporting size `sz`;
`openFd = some n` when `open` succeeds returning descriptor `n`
(`none` means `open` returns -1); `maxMsgSize` is the external constant
`MAX_IOT_MSG_SIZE` from the iotclient header; `streamResult` is the value
`IOTCLIENT_Stream` returns. -/
structure SendEnv where
  statSize : Option Int
  openFd : Option Nat
  maxMsgSize : Int
  streamResult : Int
deriving DecidableEq, Repr

/-- The descriptor held in `fd` after the optional `open` call: it starts as
`STDIN_FILENO` and is overwritten with the result of
`open(pState->fileName, O_RDONLY)` when a file name is present. -/
def fdAfterOpen (st : IOTSendState) (env : SendEnv) : Int :=
  match st.fileName with
  | none => STDIN_FILENO
  | some _ =>
    match env.openFd with
    | some n => (n : Int)
    | none => -1

/-- Observable outcome of one `SendMessage` call: the header text passed to
the stream call, which messages were printed, whether `open`, the stream
call and `close` happened, the descriptor given to the stream call, the
returned result, and the state after the call (the headers string is
mutated in place). -/
structure SendResult where
  headersUsed : String
  warnPrinted : Bool
  openCalled : Bool
  streamCalled : Bool
  streamFd : Int
  errPrinted : Bool
  closeCalled : Bool
  result : Int
  stateAfter : IOTSendState
deriving DecidableEq, Repr

/-- The `SendMessage` function of iotsend.c (lines 174-231), for the
non-NULL `pState` it is always called with.  Headers default to
`"source:iotsend\n\n"`; a supplied headers string has every `;` replaced by
a newline in place; with a file name, the size is checked against
`MAX_IOT_MSG_SIZE` (warning only) and the file is opened; the stream call
runs whenever `fd != -1`, otherwise "File not found" goes to stderr; the
descriptor is closed when a file name was given and the open succeeded. -/
def SendMessage (st : IOTSendState) (env : SendEnv) : SendResult :=
  let headersUsed :=
    match st.headers with
    | none => "source:iotsend\n\n"
    | some s => replaceSemis s
  let warnPrinted :=
    match st.fileName, env.statSize with
    | some _, some sz => decide (env.maxMsgSize < sz)
    | _, _ => false
  let fd := fdAfterOpen st env
  { headersUsed := headersUsed
    warnPrinted := warnPrinted
    openCalled := st.fileName.isSome
    streamCalled := decide (fd ≠ -1)
    streamFd := fd
    errPrinted := decide (fd = -1)
    closeCalled := st.fileName.isSome && decide (fd ≠ -1)
    result := if fd ≠ -1 then env.streamResult else EINVAL
    stateAfter := { st with headers := Option.map replaceSemis st.headers } }

/-- Environment for `main`: whether `IOTCLIENT_Create` returns a non-NULL
handle, and the environment of the send call. -/
structure MainEnv where
  createOk : Bool
  send : SendEnv
deriving DecidableEq, Repr

/-- Observable outcome of `main`: the process exit code and, when the
client was created, the outcome of the `SendMessage` call. -/
structure MainResult where
  exitCode : Int
  sendResult : Option SendResult
deriving DecidableEq, Repr

/-- Parsing state for `ProcessOptions`: the iotsend state being filled in,
plus whether `usage()` has been called (it prints the usage message to
stderr). -/
structure ParseState where
  st : IOTSendState
  usagePrinted : Bool
deriving DecidableEq, Repr

/-- One getopt option cluster (the characters of an argument after its
leading dash), processed against the option string `"hvH:"` exactly as the
switch in `ProcessOptions` handles the returned characters: `v` sets the
verbose flag, `h` calls `usage`, `H` takes an option-argument (the rest of
the cluster if non-empty, otherwise the next argument) and stores a copy in
`headers`, and any other character (getopt returns a question mark) falls
to the `default: break;` case, which does nothing.  The boolean result is
true when `H` was the last character of the cluster, so the NEXT argument
is consumed as its option-argument. -/
def clusterStep (p : ParseState) : List Char → ParseState × Bool
  | [] => (p, false)
  | c :: cs =>
    if c = 'v' then clusterStep { p with st := { p.st with verbose := true } } cs
    else if c = 'h' then clusterStep { p with usagePrinted := true } cs
    else if c = 'H' then
      match cs with
      | [] => (p, true)
      | _ :: _ => ({ p with st := { p.st with headers := some (String.mk cs) } }, false)
    else clusterStep p cs

/-- An argument getopt treats as an option cluster: it starts with a dash
and has at least one more character (a lone "-" is a non-option argument;
"--" is handled separately by the caller). -/
def isOptArg (a : String) : Bool :=
  match a.data with
  | '-' :: _ :: _ => true
  | _ => false

/-- The getopt loop of `ProcessOptions` over the arguments after the
program name (POSIX behaviour: scanning stops at the first non-option
argument; "--" ends option scanning explicitly), followed by the trailing
`if (optind < argC) pState->fileName = strdup(argV[optind]);`, which copies
the first remaining argument.  A missing option-argument for `-H` at the
end of the line makes getopt return a question mark, which the switch
ignores, and leaves no positional argument. -/
def processArgs (p : ParseState) : List String → ParseState
  | [] => p
  | arg :: rest =>
    if arg = "--" then
      match rest with
      | [] => p
      | a :: _ => { p with st := { p.st with fileName := some a } }
    else if isOptArg arg then
      match clusterStep p arg.data.tail with
      | (p', false) => processArgs p' rest
      | (p', true) =>
        match rest with
        | [] => p'
        | a :: rest' =>
          processArgs { p' with st := { p'.st with headers := some a } } rest'
    else { p with st := { p.st with fileName := some arg } }

/-- State of the `state` global before `ProcessOptions` runs: zeroed, so
the flag is false and both pointers are NULL. -/
def initParse : ParseState := ⟨⟨false, none, none⟩, false⟩

/-- The `ProcessOptions` function of iotsend.c (lines 285-323) applied to
the command-line arguments after the program name. -/
def ProcessOptions (args : List String) : ParseState := processArgs initParse args

/-- The `main` function of iotsend.c: parse the options, create the
client; when creation succeeds, run `SendMessage` (whose return value is
discarded) and set `result = EOK`; when it fails, `result` keeps its
initial value EINVAL. -/
def mainRun (args : List String) (env : MainEnv) : MainResult :=
  let p := ProcessOptions args
  if env.createOk then ⟨EOK, some (SendMessage p.st env.send)⟩
  else ⟨EINVAL, none⟩

/-- Concrete run for C2: the client is created, no file name is given, and
the external stream call returns the failure code 5. -/
def c2Env : MainEnv := ⟨true, ⟨none, none, 100, 5⟩⟩

/-- Concrete send environment for C9: no file, stat and open unused. -/
def c9Env : SendEnv := ⟨none, none, 100, 0⟩

/-- Headers field check of the data-model invariant: if a headers string is
present it is non-empty. -/
def headersOk (st : IOTSendState) : Bool :=
  match st.headers with
  | none => true
  | some s => s != ""

/-- File-name field check of the data-model invariant: if a file name is
present it is non-empty. -/
def fileNameOk (st : IOTSendState) : Bool :=
  match st.fileName with
  | none => true
  | some s => s != ""

/-- The claimed data-model invariant: file path and headers, whenever
present, are non-empty strings. -/
def stateOk (st : IOTSendState) : Bool := headersOk st && fileNameOk st

/-- Whether one option cluster makes getopt return the help character h,
following the cluster traversal of `clusterStep` exactly: an h after an H
in the same cluster is that option's argument, not a help request.  The
second component records, as in `clusterStep`, whether the NEXT argument
is consumed as the option-argument of a trailing H. -/
def clusterHelp : List Char → Bool × Bool
  | [] => (false, false)
  | c :: cs =>
    if c = 'v' then clusterHelp cs
    else if c = 'h' then (true, (clusterHelp cs).2)
    else if c = 'H' then
      match cs with
      | [] => (false, true)
      | _ :: _ => (false, false)
    else clusterHelp cs

/-- Whether a command line requests help: following the same getopt
traversal as `processArgs`, some scanned option character is h.  This is
the claim's notion of "help is requested with -h"; arguments skipped as
option-arguments of -H, arguments after "--", and the positional argument
are not scanned for options. -/
def argsHelp : List String → Bool
  | [] => false
  | arg :: rest =>
    if arg = "--" then false
    else if isOptArg arg then
      match clusterHelp arg.data.tail with
      | (h, false) => h || argsHelp rest
      | (h, true) =>
        match rest with
        | [] => h
        | _ :: rest' => h || argsHelp rest'
    else false

theorem replaceSemisList_eq_map (l : List Char) : replaceSemisList l = l.map semiToNl := by
  induction l with
  | nil => rfl
  | cons c cs ih => simp [replaceSemisList, ih]

/-- C1: whenever a headers string was supplied with -H, the header text
handed to the stream call is the supplied string with every `;` replaced by
a newline: the length is unchanged, position `i` holds the old character
unless it was `;`, in which case it holds a newline; in particular
"a:1;b:2" becomes "a:1\nb:2". -/
theorem C1_header_semicolon_rewrite (st : IOTSendState) (env : SendEnv) (s : String)
    (h : st.headers = some s) :
    (SendMessage st env).headersUsed = replaceSemis s
    ∧ (replaceSemis s).data.length = s.data.length
    ∧ (∀ i : Nat, ((replaceSemis s).data)[i]? = (s.data[i]?).map semiToNl)
    ∧ replaceSemis "a:1;b:2" = "a:1\nb:2" := by
  refine ⟨by simp [SendMessage, h], ?_, ?_, by decide⟩
  · simp [replaceSemis, replaceSemisList_eq_map]
  · intro i
    simp [replaceSemis, replaceSemisList_eq_map]

theorem C1_header_semicolon_rewrite_witness :
    (({ verbose := false, fileName := none, headers := some "a:1;b:2" } :
        IOTSendState).headers = some "a:1;b:2")
    ∧ ((SendMessage ⟨false, none, some "a:1;b:2"⟩ ⟨none, none, 0, 0⟩).headersUsed
          = replaceSemis "a:1;b:2"
        ∧ (replaceSemis "a:1;b:2").data.length = ("a:1;b:2" : String).data.length
        ∧ (∀ i : Nat, ((replaceSemis "a:1;b:2").data)[i]?
            = (("a:1;b:2" : String).data[i]?).map semiToNl)
        ∧ replaceSemis "a:1;b:2" = "a:1\nb:2") :=
  ⟨rfl, C1_header_semicolon_rewrite ⟨false, none, some "a:1;b:2"⟩ ⟨none, none, 0, 0⟩ _ rfl⟩

/-- C3: when no -H option was supplied (the headers pointer is NULL), the
header text handed to the stream call is exactly "source:iotsend\n\n". -/
theorem C3_default_headers (st : IOTSendState) (env : SendEnv)
    (h : st.headers = none) :
    (SendMessage st env).headersUsed = "source:iotsend\n\n" := by
  simp [SendMessage, h]

theorem C3_default_headers_witness :
    (({ verbose := false, fileName := none, headers := none } : IOTSendState).headers = none)
    ∧ (SendMessage ⟨false, none, none⟩ ⟨none, none, 0, 0⟩).headersUsed
        = "source:iotsend\n\n" :=
  ⟨rfl, C3_default_headers ⟨false, none, none⟩ ⟨none, none, 0, 0⟩ rfl⟩

/-- C4: when a file name was given and the open fails (returns -1), the
"File not found" message is printed to stderr, the stream call is not
performed, and `SendMessage` returns its initial EINVAL. -/
theorem C4_open_failure_no_stream (st : IOTSendState) (env : SendEnv) (f : String)
    (h1 : st.fileName = some f) (h2 : env.openFd = none) :
    (SendMessage st env).errPrinted = true
    ∧ (SendMessage st env).streamCalled = false
    ∧ (SendMessage st env).result = EINVAL := by
  refine ⟨?_, ?_, ?_⟩ <;> simp [SendMessage, fdAfterOpen, h1, h2]

theorem C4_open_failure_no_stream_witness :
    (({ verbose := false, fileName := some "no.bin", headers := none } :
        IOTSendState).fileName = some "no.bin")
    ∧ (({ statSize := none, openFd := none, maxMsgSize := 100, streamResult := 0 } :
        SendEnv).openFd = none)
    ∧ ((SendMessage ⟨false, some "no.bin", none⟩ ⟨none, none, 100, 0⟩).errPrinted = true
        ∧ (SendMessage ⟨false, some "no.bin", none⟩ ⟨none, none, 100, 0⟩).streamCalled = false
        ∧ (SendMessage ⟨false, some "no.bin", none⟩ ⟨none, none, 100, 0⟩).result = EINVAL) :=
  ⟨rfl, rfl,
    C4_open_failure_no_stream ⟨false, some "no.bin", none⟩ ⟨none, none, 100, 0⟩ "no.bin" rfl rfl⟩

/-- C5: when a file name was given, stat succeeds, and the reported size
exceeds MAX_IOT_MSG_SIZE, the truncation warning is printed but the open is
still attempted; whenever the open succeeds the stream call still runs on
the opened descriptor, and the outcome of the size check has no influence
on whether the stream call runs. -/
theorem C5_oversize_warning_only (st : IOTSendState) (env : SendEnv) (f : String) (sz : Int)
    (h1 : st.fileName = some f) (h2 : env.statSize = some sz)
    (h3 : env.maxMsgSize < sz) :
    (SendMessage st env).warnPrinted = true
    ∧ (SendMessage st env).openCalled = true
    ∧ (∀ n : Nat, env.openFd = some n →
        (SendMessage st env).streamCalled = true ∧ (SendMessage st env).streamFd = n)
    ∧ (∀ sz2 : Option Int,
        (SendMessage st { env with statSize := sz2 }).streamCalled
          = (SendMessage st env).streamCalled) := by
  refine ⟨by simp [SendMessage, h1, h2, h3], by simp [SendMessage, h1], ?_, ?_⟩
  · intro n hn
    constructor <;> simp [SendMessage, fdAfterOpen, h1, hn]
  · intro sz2
    have hfd : fdAfterOpen st { env with statSize := sz2 } = fdAfterOpen st env := by
      cases h : st.fileName <;> simp [fdAfterOpen, h]
    simp [SendMessage, hfd]

theorem C5_oversize_warning_only_witness :
    (({ verbose := false, fileName := some "big.bin", headers := none } :
        IOTSendState).fileName = some "big.bin")
    ∧ (({ statSize := some 1000, openFd := some 3, maxMsgSize := 100, streamResult := 0 } :
        SendEnv).statSize = some 1000)
    ∧ ((100 : Int) < 1000)
    ∧ ((SendMessage ⟨false, some "big.bin", none⟩ ⟨some 1000, some 3, 100, 0⟩).warnPrinted = true
        ∧ (SendMessage ⟨false, some "big.bin", none⟩ ⟨some 1000, some 3, 100, 0⟩).openCalled = true
        ∧ (∀ n : Nat, (⟨some 1000, some 3, 100, 0⟩ : SendEnv).openFd = some n →
            (SendMessage ⟨false, some "big.bin", none⟩ ⟨some 1000, some 3, 100, 0⟩).streamCalled = true
            ∧ (SendMessage ⟨false, some "big.bin", none⟩ ⟨some 1000, some 3, 100, 0⟩).streamFd = n)
        ∧ (∀ sz2 : Option Int,
            (SendMessage ⟨false, some "big.bin", none⟩
                { (⟨some 1000, some 3, 100, 0⟩ : SendEnv) with statSize := sz2 }).streamCalled
              = (SendMessage ⟨false, some "big.bin", none⟩
                  ⟨some 1000, some 3, 100, 0⟩).streamCalled)) :=
  ⟨rfl, rfl, by decide,
    C5_oversize_warning_only ⟨false, some "big.bin", none⟩ ⟨some 1000, some 3, 100, 0⟩
      "big.bin" 1000 rfl rfl (by decide)⟩

/-- C7: when no file name was given, the descriptor stays STDIN_FILENO,
which is never -1, so the stream call always runs and reads from standard
input. -/
theorem C7_stdin_when_no_file (st : IOTSendState) (env : SendEnv)
    (h : st.fileName = none) :
    (SendMessage st env).streamCalled = true
    ∧ (SendMessage st env).streamFd = STDIN_FILENO := by
  constructor <;> simp [SendMessage, fdAfterOpen, h, STDIN_FILENO]

theorem C7_stdin_when_no_file_witness :
    (({ verbose := false, fileName := none, headers := none } : IOTSendState).fileName = none)
    ∧ ((SendMessage ⟨false, none, none⟩ ⟨none, none, 100, 0⟩).streamCalled = true
        ∧ (SendMessage ⟨false, none, none⟩ ⟨none, none, 100, 0⟩).streamFd = STDIN_FILENO) :=
  ⟨rfl, C7_stdin_when_no_file ⟨false, none, none⟩ ⟨none, none, 100, 0⟩ rfl⟩

/-- C8: the descriptor is closed exactly when it came from a successful
open of a given file name, so a successfully opened file descriptor is
always released, a failed open is never closed, and in a run with no file
name (input from standard input) nothing is closed. -/
theorem C8_fd_close_iff_opened (st : IOTSendState) (env : SendEnv) :
    (SendMessage st env).closeCalled = (st.fileName.isSome && env.openFd.isSome)
    ∧ (SendMessage { st with fileName := none } env).closeCalled = false := by
  constructor
  · match h1 : st.fileName, h2 : env.openFd with
    | none, _ => simp [SendMessage, fdAfterOpen, h1]
    | some f, none => simp [SendMessage, fdAfterOpen, h1, h2]
    | some f, some n => simp [SendMessage, fdAfterOpen, h1, h2]
  · simp [SendMessage, fdAfterOpen]

/-- C2 counterexample: in the run `c2Env` the stream call is performed and
returns the failure code 5, yet the process exit code is EOK (0): `main`
discards the value `SendMessage` returns (`SendMessage( &state );` on line
139 ignores the result and line 142 sets `result = EOK`), so the exit code
does not equal the stream result. -/
theorem C2_exit_code_counterexample :
    (mainRun [] c2Env).exitCode = EOK
    ∧ (mainRun [] c2Env).sendResult = some (SendMessage (ProcessOptions []).st c2Env.send)
    ∧ (SendMessage (ProcessOptions []).st c2Env.send).streamCalled = true
    ∧ (SendMessage (ProcessOptions []).st c2Env.send).result = 5
    ∧ (mainRun [] c2Env).exitCode ≠ (SendMessage (ProcessOptions []).st c2Env.send).result := by
  refine ⟨by decide, by decide, by decide, by decide, by decide⟩

/-- C2 amended: when the external client is created successfully, the
process exit code is always EOK, whatever the stream call returned;
`SendMessage` itself does return the stream call's result, but `main`
discards it. -/
theorem C2_exit_code_amended (args : List String) (env : MainEnv)
    (st : IOTSendState) (senv : SendEnv)
    (h : env.createOk = true) (h2 : (SendMessage st senv).streamCalled = true) :
    (mainRun args env).exitCode = EOK
    ∧ (SendMessage st senv).result = senv.streamResult := by
  constructor
  · simp [mainRun, h]
  · simp only [SendMessage, decide_eq_true_eq] at h2 ⊢
    simp [h2]

theorem C2_exit_code_amended_witness :
    c2Env.createOk = true
    ∧ (SendMessage ⟨false, none, none⟩ c2Env.send).streamCalled = true
    ∧ ((mainRun [] c2Env).exitCode = EOK
        ∧ (SendMessage ⟨false, none, none⟩ c2Env.send).result = c2Env.send.streamResult) :=
  ⟨rfl, by decide,
    C2_exit_code_amended [] c2Env ⟨false, none, none⟩ c2Env.send rfl (by decide)⟩

/-- C9 counterexample: after parsing the command line with -H "a;b", the
send operation rewrites the header string's contents in place, so the
state's headers change from "a;b" to "a\nb": the run configuration IS
mutated after `ProcessOptions` returns. -/
theorem C9_frame_counterexample :
    (ProcessOptions ["-H", "a;b"]).st.headers = some "a;b"
    ∧ (SendMessage (ProcessOptions ["-H", "a;b"]).st c9Env).stateAfter.headers = some "a\nb"
    ∧ (SendMessage (ProcessOptions ["-H", "a;b"]).st c9Env).stateAfter.headers
        ≠ (ProcessOptions ["-H", "a;b"]).st.headers := by
  refine ⟨by decide, by decide, by decide⟩

/-- C9 amended: after parsing, the send operation leaves the verbose flag,
the file name, and the presence of a headers string unchanged; its only
mutation of the run configuration is the in-place rewrite of the headers
string contents, replacing every `;` with a newline. -/
theorem C9_frame_amended (st : IOTSendState) (env : SendEnv) :
    (SendMessage st env).stateAfter.verbose = st.verbose
    ∧ (SendMessage st env).stateAfter.fileName = st.fileName
    ∧ (SendMessage st env).stateAfter.headers = Option.map replaceSemis st.headers
    ∧ (SendMessage st env).stateAfter.headers.isSome = st.headers.isSome := by
  refine ⟨rfl, rfl, rfl, ?_⟩
  cases h : st.headers <;> simp [SendMessage, h]

theorem mk_cons_bne_empty (c : Char) (l : List Char) :
    (String.mk (c :: l) != "") = true := by
  simp [bne, String.ext_iff]

/-- Manual unfolding of one step of the getopt loop. -/
theorem processArgs_cons (p : ParseState) (arg : String) (rest : List String) :
    processArgs p (arg :: rest)
      = if arg = "--" then
          match rest with
          | [] => p
          | a :: _ => { p with st := { p.st with fileName := some a } }
        else if isOptArg arg then
          match clusterStep p arg.data.tail with
          | (p', false) => processArgs p' rest
          | (p', true) =>
            match rest with
            | [] => p'
            | a :: rest' =>
              processArgs { p' with st := { p'.st with headers := some a } } rest'
        else { p with st := { p.st with fileName := some arg } } := by
  rw [processArgs.eq_def]

/-- Manual unfolding of one step of the option-cluster scan. -/
theorem clusterStep_cons (p : ParseState) (c : Char) (cs : List Char) :
    clusterStep p (c :: cs)
      = if c = 'v' then clusterStep { p with st := { p.st with verbose := true } } cs
        else if c = 'h' then clusterStep { p with usagePrinted := true } cs
        else if c = 'H' then
          match cs with
          | [] => (p, true)
          | _ :: _ => ({ p with st := { p.st with headers := some (String.mk cs) } }, false)
        else clusterStep p cs := by
  rw [clusterStep.eq_def]

/-- Manual unfolding of one step of the cluster help scan. -/
theorem clusterHelp_cons (c : Char) (cs : List Char) :
    clusterHelp (c :: cs)
      = if c = 'v' then clusterHelp cs
        else if c = 'h' then (true, (clusterHelp cs).2)
        else if c = 'H' then
          match cs with
          | [] => (false, true)
          | _ :: _ => (false, false)
        else clusterHelp cs := by
  rw [clusterHelp.eq_def]

/-- Manual unfolding of one step of the command-line help scan. -/
theorem argsHelp_cons (arg : String) (rest : List String) :
    argsHelp (arg :: rest)
      = if arg = "--" then false
        else if isOptArg arg then
          match clusterHelp arg.data.tail with
          | (h, false) => h || argsHelp rest
          | (h, true) =>
            match rest with
            | [] => h
            | _ :: rest' => h || argsHelp rest'
        else false := by
  rw [argsHelp.eq_def]

/-- The option-cluster scan sets the usage flag exactly when it meets the
help character, and `clusterHelp` tracks whether the next argument is
consumed the same way `clusterStep` does. -/
theorem clusterStep_help (cs : List Char) (p : ParseState) :
    (clusterStep p cs).2 = (clusterHelp cs).2
    ∧ (clusterStep p cs).1.usagePrinted = (p.usagePrinted || (clusterHelp cs).1) := by
  induction cs generalizing p with
  | nil => simp [clusterStep, clusterHelp]
  | cons c cs ih =>
    rw [clusterStep_cons, clusterHelp_cons]
    by_cases hv : c = 'v'
    · rw [if_pos hv, if_pos hv]
      exact ⟨(ih _).1, (ih _).2⟩
    · rw [if_neg hv, if_neg hv]
      by_cases hh : c = 'h'
      · rw [if_pos hh, if_pos hh]
        refine ⟨(ih _).1, ?_⟩
        rw [(ih { p with usagePrinted := true }).2]
        simp
      · rw [if_neg hh, if_neg hh]
        by_cases hH : c = 'H'
        · rw [if_pos hH, if_pos hH]
          cases cs with
          | nil => simp
          | cons d ds => simp
        · rw [if_neg hH, if_neg hH]
          exact ⟨(ih _).1, (ih _).2⟩

theorem processArgs_usage_eq_aux (n : Nat) :
    ∀ args : List String, args.length ≤ n → ∀ p : ParseState,
      (processArgs p args).usagePrinted = (p.usagePrinted || argsHelp args) := by
  induction n with
  | zero =>
    intro args hlen p
    have h0 : args = [] := List.length_eq_zero.mp (Nat.le_zero.mp hlen)
    subst h0
    simp [processArgs, argsHelp]
  | succ n ih =>
    intro args hlen p
    match args with
    | [] => simp [processArgs, argsHelp]
    | arg :: rest =>
      have hrest : rest.length ≤ n := by
        simp only [List.length_cons] at hlen
        omega
      rw [processArgs_cons, argsHelp_cons]
      by_cases hdd : arg = "--"
      · rw [if_pos hdd, if_pos hdd]
        cases rest with
        | nil => simp
        | cons a l => simp
      · rw [if_neg hdd, if_neg hdd]
        by_cases hopt : isOptArg arg = true
        · rw [if_pos hopt, if_pos hopt]
          rcases hpair : clusterStep p arg.data.tail with ⟨p', b⟩
          have hch := clusterStep_help arg.data.tail p
          rw [hpair] at hch
          rcases hc : clusterHelp arg.data.tail with ⟨hh, b2⟩
          rw [hc] at hch
          obtain ⟨hb, hup⟩ := hch
          subst hb
          cases b with
          | false =>
            show (processArgs p' rest).usagePrinted
              = (p.usagePrinted || (hh || argsHelp rest))
            rw [ih rest hrest p', hup, Bool.or_assoc]
          | true =>
            cases rest with
            | nil => exact hup
            | cons a rest2 =>
              have h2 : rest2.length ≤ n := by
                simp only [List.length_cons] at hlen
                omega
              show (processArgs { p' with st := { p'.st with headers := some a } }
                  rest2).usagePrinted = (p.usagePrinted || (hh || argsHelp rest2))
              rw [ih rest2 h2 { p' with st := { p'.st with headers := some a } }]
              have hsame : ({ p' with st := { p'.st with headers := some a } } :
                  ParseState).usagePrinted = p'.usagePrinted := rfl
              rw [hsame, hup, Bool.or_assoc]
        · rw [if_neg hopt]
          rw [if_neg hopt]
          simp

/-- The getopt loop sets the usage flag exactly when the command line
requests help. -/
theorem processArgs_usage_eq (args : List String) (p : ParseState) :
    (processArgs p args).usagePrinted = (p.usagePrinted || argsHelp args) :=
  processArgs_usage_eq_aux args.length args (Nat.le_refl _) p

/-- C6 counterexample: on the command line with the single unrecognized
option -x, getopt hands the question-mark character to the switch in
`ProcessOptions`, which falls to `default: break;` and does nothing, so the
program's `usage()` function is never called. -/
theorem C6_usage_counterexample : (ProcessOptions ["-x"]).usagePrinted = false := by
  decide

/-- C6 amended: on every command line, the usage message is printed
exactly when the getopt scan encounters the help option character h —
requesting help with -h anywhere, also inside a cluster such as -vh,
prints it, and nothing else ever does: an unrecognized option reaches
`default: break;`, so no unrecognized option makes the program print its
usage message. -/
theorem C6_usage_iff_help (args : List String) :
    (ProcessOptions args).usagePrinted = argsHelp args := by
  have h := processArgs_usage_eq args initParse
  simpa [ProcessOptions, initParse] using h

/-- The option-cluster scan preserves the invariant: the verbose and usage
updates do not touch the string fields, and a headers string taken from the
rest of a cluster is necessarily non-empty. -/
theorem clusterStep_ok (cs : List Char) (p : ParseState)
    (hp : stateOk p.st = true) : stateOk (clusterStep p cs).1.st = true := by
  induction cs generalizing p with
  | nil => simpa [clusterStep] using hp
  | cons c cs ih =>
    rw [clusterStep_cons]
    by_cases hv : c = 'v'
    · rw [if_pos hv]
      refine ih _ ?_
      simpa [stateOk, headersOk, fileNameOk] using hp
    · rw [if_neg hv]
      by_cases hh : c = 'h'
      · rw [if_pos hh]; exact ih _ hp
      · rw [if_neg hh]
        by_cases hH : c = 'H'
        · rw [if_pos hH]
          cases cs with
          | nil => exact hp
          | cons d ds =>
            have hf : fileNameOk p.st = true := by
              have hp2 := hp
              simp only [stateOk, Bool.and_eq_true] at hp2
              exact hp2.2
            simp only [stateOk, Bool.and_eq_true]
            constructor
            · simpa [headersOk] using mk_cons_bne_empty d ds
            · simpa [fileNameOk] using hf
        · rw [if_neg hH]; exact ih _ hp

theorem processArgs_ok_aux (n : Nat) :
    ∀ args : List String, args.length ≤ n → ∀ p : ParseState,
      stateOk p.st = true → args.all (fun a => a != "") = true →
      stateOk (processArgs p args).st = true := by
  induction n with
  | zero =>
    intro args hlen p hp _
    have h0 : args = [] := List.length_eq_zero.mp (Nat.le_zero.mp hlen)
    subst h0
    simpa [processArgs] using hp
  | succ n ih =>
    intro args hlen p hp hall
    match args with
    | [] => simpa [processArgs] using hp
    | arg :: rest =>
      have hrest : rest.length ≤ n := by
        simp only [List.length_cons] at hlen
        omega
      have harg : (arg != "") = true := by
        simp only [List.all_cons, Bool.and_eq_true] at hall
        exact hall.1
      have hallrest : rest.all (fun a => a != "") = true := by
        simp only [List.all_cons, Bool.and_eq_true] at hall
        exact hall.2
      rw [processArgs_cons]
      by_cases hdd : arg = "--"
      · rw [if_pos hdd]
        cases rest with
        | nil => exact hp
        | cons a l =>
          have ha : (a != "") = true := by
            simp only [List.all_cons, Bool.and_eq_true] at hallrest
            exact hallrest.1
          have hh : headersOk p.st = true := by
            have hp2 := hp
            simp only [stateOk, Bool.and_eq_true] at hp2
            exact hp2.1
          simp only [stateOk, Bool.and_eq_true]
          exact ⟨by simpa [headersOk] using hh, by simpa [fileNameOk] using ha⟩
      · rw [if_neg hdd]
        by_cases hopt : isOptArg arg = true
        · rw [if_pos hopt]
          rcases hpair : clusterStep p arg.data.tail with ⟨p', b⟩
          have hp' : stateOk p'.st = true := by
            have hm := clusterStep_ok arg.data.tail p hp
            rw [hpair] at hm
            exact hm
          cases b with
          | false => exact ih rest hrest p' hp' hallrest
          | true =>
            cases rest with
            | nil => exact hp'
            | cons a rest2 =>
              have h2 : rest2.length ≤ n := by
                simp only [List.length_cons] at hlen
                omega
              have ha : (a != "") = true := by
                simp only [List.all_cons, Bool.and_eq_true] at hallrest
                exact hallrest.1
              have hall2 : rest2.all (fun a => a != "") = true := by
                simp only [List.all_cons, Bool.and_eq_true] at hallrest
                exact hallrest.2
              refine ih rest2 h2 _ ?_ hall2
              have hf : fileNameOk p'.st = true := by
                have hp2 := hp'
                simp only [stateOk, Bool.and_eq_true] at hp2
                exact hp2.2
              simp only [stateOk, Bool.and_eq_true]
              exact ⟨by simpa [headersOk] using ha, by simpa [fileNameOk] using hf⟩
        · rw [if_neg hopt]
          have hh : headersOk p.st = true := by
            have hp2 := hp
            simp only [stateOk, Bool.and_eq_true] at hp2
            exact hp2.1
          simp only [stateOk, Bool.and_eq_true]
          exact ⟨by simpa [headersOk] using hh, by simpa [fileNameOk] using harg⟩

/-- C10 counterexample: the command line -H "" is accepted and stores a
present but EMPTY headers string, so the claimed invariant fails after
parsing. -/
theorem C10_nonempty_counterexample :
    (ProcessOptions ["-H", ""]).st.headers = some ""
    ∧ stateOk (ProcessOptions ["-H", ""]).st = false := by
  refine ⟨by decide, by decide⟩

/-- C10 amended: whenever every argument string on the command line is
non-empty, the invariant holds after parsing: the file path and the
headers string, if present, are non-empty (an empty supplied argument is
copied verbatim by strdup, so the invariant needs that proviso). -/
theorem C10_nonempty_fields (args : List String)
    (h : args.all (fun a => a != "") = true) :
    stateOk (ProcessOptions args).st = true :=
  processArgs_ok_aux args.length args (Nat.le_refl _) initParse rfl h

theorem C10_nonempty_fields_witness :
    (["-H", "x:1", "file.txt"].all (fun a => a != "") = true)
    ∧ stateOk (ProcessOptions ["-H", "x:1", "file.txt"]).st = true :=
  ⟨by decide, C10_nonempty_fields ["-H", "x:1", "file.txt"] (by decide)⟩
